import Mathlib

/-!
Shallow embedding of the `NFToken` ink! contract (`src/lib.rs`) and proofs
about its public operations.

Modelling conventions:
- `AccountId` is modelled as `Nat` (an opaque equality-comparable identity).
- `storage::HashMap` is modelled as an association list with unique keys:
  `hmInsert` removes any previous binding before consing the new one, so that
  lookup (`hmGet`) matches the Rust `HashMap` observational behaviour.
- `u64` values are `Nat`s; every arithmetic operation the contract performs on
  a `u64` is taken modulo `2 ^ 64` (`add64`, `sub64`), matching wrapping
  release-mode semantics.
- Event emission has no effect on contract storage and is omitted.
- Each public method takes the caller identity (`env.caller()`) explicitly and
  returns the Rust return value paired with the post-state.
-/

namespace NFToken

/-- Account identifiers are opaque and only compared for equality. -/
abbrev AccountId := Nat

/-- `2 ^ 64`, the modulus of `u64` arithmetic. -/
def u64Mod : Nat := 18446744073709551616

/-- Wrapping `u64` addition. -/
def add64 (a b : Nat) : Nat := (a + b) % u64Mod

/-- Wrapping `u64` subtraction (both arguments assumed below `2 ^ 64`). -/
def sub64 (a b : Nat) : Nat := (a + u64Mod - b) % u64Mod

/-- Lookup in an association-list map: the value at the first matching key. -/
def hmGet {β : Type} (m : List (Nat × β)) (k : Nat) : Option β :=
  match m with
  | [] => none
  | p :: rest => if p.1 = k then some p.2 else hmGet rest k

/-- Remove every binding of key `k` (Rust `HashMap::remove`). -/
def hmRemove {β : Type} (m : List (Nat × β)) (k : Nat) : List (Nat × β) :=
  match m with
  | [] => []
  | p :: rest => if p.1 = k then hmRemove rest k else p :: hmRemove rest k

/-- Insert/overwrite the binding of key `k` (Rust `HashMap::insert`). -/
def hmInsert {β : Type} (m : List (Nat × β)) (k : Nat) (v : β) : List (Nat × β) :=
  (k, v) :: hmRemove m k

/-- Storage of the `NFToken` contract (`struct NFToken` in `src/lib.rs`). -/
structure State where
  /-- Owner of contract. -/
  owner : AccountId
  /-- Total tokens minted (u64). -/
  total_minted : Nat
  /-- Mapping: token_id (u64) to owner (AccountId). -/
  id_to_owner : List (Nat × AccountId)
  /-- Mapping: owner (AccountId) to token count (u64). -/
  owner_to_token_count : List (Nat × Nat)
  /-- Mapping: token_id (u64) to approved account (AccountId). -/
  approvals : List (Nat × AccountId)
  deriving DecidableEq

/-- `is_approved`: whether `approved` is the approved delegate of `token_id`. -/
def is_approved (s : State) (token_id : Nat) (approved : AccountId) : Bool :=
  match hmGet s.approvals token_id with
  | none => false
  | some a => if a = approved then true else false

/-- `balance_of`: token count of `owner`, defaulting to 0 when absent. -/
def balance_of (s : State) (owner : AccountId) : Nat :=
  (hmGet s.owner_to_token_count owner).getD 0

/-- Private helper `is_token_owner`: whether `of` owns `token_id`. -/
def is_token_owner (s : State) (of : AccountId) (token_id : Nat) : Bool :=
  match hmGet s.id_to_owner token_id with
  | none => false
  | some o => if o ≠ of then false else true

/-- Private helper `transfer_impl`: moves `token_id` from `from_` to `to`
provided `from_` currently owns it, updating both owner token counts. -/
def transfer_impl (s : State) (from_ to_ : AccountId) (token_id : Nat) :
    Bool × State :=
  if is_token_owner s from_ token_id = false then (false, s)
  else
    let s1 := { s with id_to_owner := hmInsert s.id_to_owner token_id to_ }
    let from_owner_count := (hmGet s1.owner_to_token_count from_).getD 0
    let to_owner_count := (hmGet s1.owner_to_token_count to_).getD 0
    let s2 := { s1 with
      owner_to_token_count :=
        hmInsert s1.owner_to_token_count from_ (sub64 from_owner_count 1) }
    let s3 := { s2 with
      owner_to_token_count :=
        hmInsert s2.owner_to_token_count to_ (add64 to_owner_count 1) }
    (true, s3)

/-- Loop body of `mint_impl`: `for token_id in start_id..stop_id` inserts
`receiver` as owner of each id in the half-open range; `fuel` is the number of
remaining iterations (`stop_id - start_id` at the call site). -/
def mintLoop (fuel : Nat) (m : List (Nat × AccountId)) (token_id : Nat)
    (receiver : AccountId) : List (Nat × AccountId) :=
  match fuel with
  | 0 => m
  | Nat.succ n => mintLoop n (hmInsert m token_id receiver) (token_id + 1) receiver

/-- Private helper `mint_impl`: inserts owner records for the half-open id
range `total_minted + 1 .. total_minted + value`, credits `value` to the
token count of the contract owner (`self.owner`), and advances
`total_minted` by `value`. Always returns `true`. -/
def mint_impl (s : State) (receiver : AccountId) (value : Nat) : Bool × State :=
  let start_id := add64 s.total_minted 1
  let stop_id := add64 s.total_minted value
  let s1 := { s with
    id_to_owner := mintLoop (stop_id - start_id) s.id_to_owner start_id receiver }
  let from_owner_count := (hmGet s1.owner_to_token_count s1.owner).getD 0
  let s2 := { s1 with
    owner_to_token_count :=
      hmInsert s1.owner_to_token_count s1.owner (add64 from_owner_count value) }
  (true, { s2 with total_minted := add64 s2.total_minted value })

/-- Public `transfer`: the caller transfers `token_id` to `to`. -/
def transfer (s : State) (caller to_ : AccountId) (token_id : Nat) :
    Bool × State :=
  let r := transfer_impl s caller to_ token_id
  if r.1 = true then (true, r.2) else (false, r.2)

/-- Public `transfer_from`: direct path when the caller owns the token,
otherwise the delegated path through the approvals map. -/
def transfer_from (s : State) (caller to_ : AccountId) (token_id : Nat) :
    Bool × State :=
  if is_token_owner s caller token_id = true then
    transfer_impl s caller to_ token_id
  else
    match hmGet s.approvals token_id with
    | none => (false, s)
    | some a =>
      if a = caller then transfer_impl s caller to_ token_id
      else (false, s)

/-- Public `mint`: gated on the caller being the contract owner, then
delegates to `mint_impl`. -/
def mint (s : State) (caller to_ : AccountId) (value : Nat) : Bool × State :=
  if caller ≠ s.owner then (false, s)
  else
    let r := mint_impl s to_ value
    if r.1 = true then (true, r.2) else (false, r.2)

/-- Public `approval`: grants (`approved = true`) or revokes
(`approved = false`) the delegate `to` for `token_id`; only the token's
current owner may call it. -/
def approval (s : State) (caller to_ : AccountId) (token_id : Nat)
    (approved : Bool) : Bool × State :=
  match hmGet s.id_to_owner token_id with
  | none => (false, s)
  | some token_owner =>
    if token_owner ≠ caller then (false, s)
    else
      match hmGet s.approvals token_id with
      | none =>
        if approved = true then
          (true, { s with approvals := hmInsert s.approvals token_id to_ })
        else (false, s)
      | some existing =>
        let s1 :=
          if existing = to_ ∧ approved = false then
            { s with approvals := hmRemove s.approvals token_id }
          else s
        let s2 :=
          if approved = true then
            { s1 with approvals := hmInsert s1.approvals token_id to_ }
          else s1
        (true, s2)

/-- `deploy`: zero the minted counter, record the deployer as contract owner,
and mint `init_value` initial tokens to the deployer when positive. -/
def deploy (caller : AccountId) (init_value : Nat) : State :=
  let s : State :=
    { owner := caller, total_minted := 0, id_to_owner := [],
      owner_to_token_count := [], approvals := [] }
  if init_value > 0 then (mint_impl s caller init_value).2 else s

/-- One public mutating invocation, with its caller. -/
inductive Op : Type where
  | transferOp (caller to_ token_id : Nat) : Op
  | transferFromOp (caller to_ token_id : Nat) : Op
  | mintOp (caller to_ value : Nat) : Op
  | approvalOp (caller to_ token_id : Nat) (approved : Bool) : Op

/-- State reached after one public invocation. -/
def applyOp (s : State) (op : Op) : State :=
  match op with
  | .transferOp c t id => (transfer s c t id).2
  | .transferFromOp c t id => (transfer_from s c t id).2
  | .mintOp c t v => (mint s c t v).2
  | .approvalOp c t id b => (approval s c t id b).2

/-- Run a sequence of public invocations from a state. -/
def runOps (s : State) (ops : List Op) : State := ops.foldl applyOp s

/-- A state is reachable when some deployment followed by some sequence of
public invocations produces it. -/
def Reachable (s : State) : Prop :=
  ∃ caller init ops, s = runOps (deploy caller init) ops

/-- Number of token ids whose current owner record is `i` (the measure the
spec invariant compares balances against; key sets stay duplicate-free because
all writes go through `hmInsert`/`hmRemove`). -/
def ownedCount (s : State) (i : AccountId) : Nat :=
  (s.id_to_owner.filter (fun p => p.2 = i)).length

/-! ### Basic lemmas about the association-list map -/

theorem hmGet_remove {β : Type} (m : List (Nat × β)) (k k' : Nat) :
    hmGet (hmRemove m k) k' = if k' = k then none else hmGet m k' := by
  induction m with
  | nil => simp [hmRemove, hmGet]
  | cons p rest ih =>
    by_cases h1 : p.1 = k
    · by_cases h2 : k' = k
      · subst h2
        simp [hmRemove, hmGet, h1, ih]
      · have h2' : ¬ k = k' := fun hh => h2 hh.symm
        simp [hmRemove, hmGet, h1, h2, h2', ih]
    · by_cases h3 : p.1 = k'
      · have h2 : ¬ k' = k := fun hk => h1 (h3.trans hk)
        simp [hmRemove, hmGet, h1, h2, h3]
      · simp [hmRemove, hmGet, h1, h3, ih]

theorem hmGet_insert {β : Type} (m : List (Nat × β)) (k : Nat) (v : β)
    (k' : Nat) :
    hmGet (hmInsert m k v) k' = if k' = k then some v else hmGet m k' := by
  by_cases h : k' = k
  · subst h
    simp [hmInsert, hmGet]
  · have h' : ¬ k = k' := fun hh => h hh.symm
    simp [hmInsert, hmGet, hmGet_remove, h, h']

/-! ### Frame and unfolding lemmas for the transfer family -/

theorem transfer_impl_of_not_owner (s : State) (from_ to_ : AccountId)
    (token_id : Nat) (h : is_token_owner s from_ token_id = false) :
    transfer_impl s from_ to_ token_id = (false, s) := by
  simp [transfer_impl, h]

theorem transfer_impl_of_owner (s : State) (from_ to_ : AccountId)
    (token_id : Nat) (h : is_token_owner s from_ token_id = true) :
    transfer_impl s from_ to_ token_id =
      (true,
        { s with
          id_to_owner := hmInsert s.id_to_owner token_id to_,
          owner_to_token_count :=
            hmInsert
              (hmInsert s.owner_to_token_count from_
                (sub64 (balance_of s from_) 1))
              to_ (add64 (balance_of s to_) 1) }) := by
  simp [transfer_impl, h, balance_of]

theorem transfer_eq_impl (s : State) (caller to_ : AccountId) (token_id : Nat) :
    transfer s caller to_ token_id = transfer_impl s caller to_ token_id := by
  unfold transfer
  cases hr : transfer_impl s caller to_ token_id with
  | mk b s2 => cases b <;> simp

theorem transfer_from_eq (s : State) (caller to_ : AccountId) (token_id : Nat) :
    transfer_from s caller to_ token_id =
      if is_token_owner s caller token_id = true then
        transfer_impl s caller to_ token_id
      else (false, s) := by
  by_cases h : is_token_owner s caller token_id = true
  · simp [transfer_from, h]
  · have h' : is_token_owner s caller token_id = false := by
      cases hb : is_token_owner s caller token_id
      · rfl
      · exact absurd hb h
    cases ha : hmGet s.approvals token_id with
    | none => simp [transfer_from, h', ha]
    | some a =>
      by_cases hc : a = caller
      · simp [transfer_from, h', ha, hc, transfer_impl_of_not_owner s caller to_ token_id h']
      · simp [transfer_from, h', ha, hc]

theorem transfer_impl_approvals (s : State) (from_ to_ : AccountId)
    (token_id : Nat) :
    (transfer_impl s from_ to_ token_id).2.approvals = s.approvals := by
  by_cases h : is_token_owner s from_ token_id = true
  · simp [transfer_impl_of_owner s from_ to_ token_id h]
  · have h' : is_token_owner s from_ token_id = false := by
      cases hb : is_token_owner s from_ token_id
      · rfl
      · exact absurd hb h
    simp [transfer_impl_of_not_owner s from_ to_ token_id h']

theorem is_approved_congr {s1 s2 : State} (h : s1.approvals = s2.approvals)
    (token_id : Nat) (d : AccountId) :
    is_approved s1 token_id d = is_approved s2 token_id d := by
  simp [is_approved, h]

theorem hmGet_insert_self {β : Type} (m : List (Nat × β)) (k : Nat) (v : β) :
    hmGet (hmInsert m k v) k = some v := by
  rw [hmGet_insert, if_pos (rfl : k = k)]

theorem getD_insert_self (m : List (Nat × Nat)) (k v : Nat) :
    (hmGet (hmInsert m k v) k).getD 0 = v := by
  rw [hmGet_insert_self]
  rfl

theorem getD_insert_insert_ne (m : List (Nat × Nat)) (k1 k2 x y : Nat)
    (hc : ¬ k1 = k2) :
    (hmGet (hmInsert (hmInsert m k1 x) k2 y) k1).getD 0 = x := by
  rw [hmGet_insert, if_neg hc, hmGet_insert, if_pos (rfl : k1 = k1)]
  rfl

/-! ### Concrete scenario states used by the claim theorems -/

/-- Account 0 deploys with initial amount 2: account 0 is contract owner,
holds a token count of 2, and owns token 1 (the minting loop is half-open, so
token 2 gets no owner record). -/
def sDep2 : State := deploy 0 2

/-- `sDep2` after account 0 approves delegate 3 for token 1. -/
def sAppr : State := (approval sDep2 0 3 1 true).2

/-- Account 0 deploys with no initial mint. -/
def sDep0 : State := deploy 0 0

/-- `sDep0` after the contract owner mints 2 tokens to account 1: account 1
gets the owner record of token 1, but the 2 token count is credited to the
contract owner, account 0. -/
def sMint2 : State := (mint sDep0 0 1 2).2

/-! ### Claim theorems -/

/-- Claim C1: the claim says a caller that is the approved delegate (and not
the owner) of a minted token succeeds in `transfer_from` and reassigns the
token. In the code the delegated branch calls `transfer_impl` with the caller
as `from`, which re-checks that the caller owns the token, so the delegated
path always fails: in the reachable state `sAppr`, account 3 is the approved
delegate of token 1 (owned by account 0), yet `transfer_from` by account 3
returns `false` and leaves the state unchanged. -/
theorem C1_delegated_transfer_from_fails :
    Reachable sAppr ∧
    hmGet sAppr.id_to_owner 1 = some 0 ∧
    is_approved sAppr 1 3 = true ∧
    is_token_owner sAppr 3 1 = false ∧
    transfer_from sAppr 3 5 1 = (false, sAppr) :=
  ⟨⟨0, 2, [Op.approvalOp 0 3 1 true], rfl⟩, by decide, by decide, by decide,
    by decide⟩

/-- Claim C2: the claim says a successful `mint(receiver, amount)` creates
owner records for the `amount` ids `TotalMinted + 1 ..= TotalMinted + amount`.
The minting loop iterates the half-open range `start_id..stop_id`, so from a
fresh state a successful mint of 3 tokens to account 7 advances
`total_minted` to 3 and records owners for ids 1 and 2 only: id 3 has no
owner record. -/
theorem C2_mint_creates_amount_minus_one_records :
    (mint sDep0 0 7 3).1 = true ∧
    (mint sDep0 0 7 3).2.total_minted = 3 ∧
    hmGet (mint sDep0 0 7 3).2.id_to_owner 1 = some 7 ∧
    hmGet (mint sDep0 0 7 3).2.id_to_owner 2 = some 7 ∧
    hmGet (mint sDep0 0 7 3).2.id_to_owner 3 = none :=
  ⟨by decide, by decide, by decide, by decide, by decide⟩

/-- Claim C3: the claim says a successful `mint(receiver, amount)` increases
`balance_of(receiver)` by `amount`, including when the receiver is not the
contract owner. `mint_impl` reads and writes the token count of `self.owner`
instead of `receiver`: minting 4 tokens to account 5 (contract owner is
account 0) leaves `balance_of 5` at 0 and raises `balance_of 0` to 4. -/
theorem C3_mint_credits_contract_owner :
    (mint sDep0 0 5 4).1 = true ∧
    balance_of sDep0 5 = 0 ∧
    balance_of sDep0 0 = 0 ∧
    balance_of (mint sDep0 0 5 4).2 5 = 0 ∧
    balance_of (mint sDep0 0 5 4).2 0 = 4 :=
  ⟨by decide, by decide, by decide, by decide, by decide⟩

/-- Claim C4: the claim says every reachable state satisfies
`balance_of i = ownedCount i` for every identity `i`. Deploying with initial
amount 1 reaches a state where the deployer's token count is 1 while the
half-open minting loop created no owner record at all, so the invariant
fails already at deployment. -/
theorem C4_balance_count_invariant_fails :
    Reachable (deploy 0 1) ∧
    balance_of (deploy 0 1) 0 = 1 ∧
    ownedCount (deploy 0 1) 0 = 0 :=
  ⟨⟨0, 1, [], rfl⟩, by decide, by decide⟩

/-- Claim C9: `mint` by a caller different from the contract owner returns
`false` and leaves the whole state (hence `total_minted`, every owner record
and every token count) unchanged. -/
theorem C9_mint_unauthorized (s : State) (caller to_ : AccountId) (value : Nat)
    (h : caller ≠ s.owner) :
    mint s caller to_ value = (false, s) := by
  simp [mint, h]

/-- Witness for C9: in `sDep2` the contract owner is account 0, so a mint by
account 9 fails and changes nothing. -/
theorem C9_mint_unauthorized_witness :
    mint sDep2 9 5 10 = (false, sDep2) :=
  C9_mint_unauthorized sDep2 9 5 10 (by decide)

/-- Claim C10: the claim says that whenever a transfer reaches its balance
update, the source's recorded token count is at least 1, so `count - 1`
cannot underflow. Because `mint_impl` credits token counts to the contract
owner, the reachable state `sMint2` has account 1 owning token 1 with a
recorded count of 0; its transfer of token 1 succeeds and the `u64`
decrement wraps the count to `2 ^ 64 - 1`. -/
theorem C10_balance_underflow_reachable :
    Reachable sMint2 ∧
    is_token_owner sMint2 1 1 = true ∧
    balance_of sMint2 1 = 0 ∧
    (transfer sMint2 1 2 1).1 = true ∧
    balance_of (transfer sMint2 1 2 1).2 1 = 18446744073709551615 :=
  ⟨⟨0, 0, [Op.mintOp 0 1 2], rfl⟩, by decide, by decide, by decide, by decide⟩

/-- Claim C5 counterexample: the claim says that revoking when the existing
approval names a different delegate is a failure returning `false`. In
`sAppr` token 1 is owned by the caller, account 0, and its approved delegate
is account 3; revoking delegate 4 leaves the state unchanged but returns
`true`, refuting the claim at this input. -/
theorem C5_unmatched_revoke_returns_true :
    hmGet sAppr.id_to_owner 1 = some 0 ∧
    hmGet sAppr.approvals 1 = some 3 ∧
    (approval sAppr 0 4 1 false).1 = true ∧
    (approval sAppr 0 4 1 false).2 = sAppr :=
  ⟨by decide, by decide, by decide, by decide⟩

/-- Claim C5 (amended): when the caller owns `token_id` and an approval
exists whose delegate differs from `d`, `approval(d, token_id, false)`
leaves the state unchanged but returns `true` (the unmatched revoke is
silently accepted rather than reported as a failure). -/
theorem C5_unmatched_revoke_spec (s : State) (caller d existing : AccountId)
    (token_id : Nat)
    (h1 : hmGet s.id_to_owner token_id = some caller)
    (h2 : hmGet s.approvals token_id = some existing)
    (h3 : existing ≠ d) :
    approval s caller d token_id false = (true, s) := by
  simp [approval, h1, h2, h3]

/-- Witness for the amended C5 at the concrete state `sAppr`. -/
theorem C5_unmatched_revoke_spec_witness :
    approval sAppr 0 4 1 false = (true, sAppr) :=
  C5_unmatched_revoke_spec sAppr 0 4 3 1 (by decide) (by decide) (by decide)

/-- Claim C6 counterexample: the claim says a successful self-transfer is
net zero for the caller's balance. In `sDep2` account 0 owns token 1 with a
recorded count of 2; transferring token 1 to itself succeeds and raises the
recorded count to 3, because the increment of the destination count
overwrites the decrement of the source count on the same key. -/
theorem C6_self_transfer_inflates_balance :
    is_token_owner sDep2 0 1 = true ∧
    (transfer sDep2 0 0 1).1 = true ∧
    balance_of sDep2 0 = 2 ∧
    balance_of (transfer sDep2 0 0 1).2 0 = 3 :=
  ⟨by decide, by decide, by decide, by decide⟩

/-- Claim C6 (amended): `transfer(to, id)` returns `true` iff the caller is
the current owner of `id`; on failure the state is unchanged; on success the
new owner record of `id` is `to`, and when `to ≠ caller` the caller's
recorded count becomes its `u64` predecessor and `to`'s its `u64` successor,
while when `to = caller` the caller's recorded count becomes its `u64`
successor (the increment overwrites the decrement). -/
theorem C6_transfer_semantics (s : State) (caller to_ : AccountId)
    (token_id : Nat) :
    (transfer s caller to_ token_id).1 = is_token_owner s caller token_id
    ∧ ((transfer s caller to_ token_id).1 = false →
        (transfer s caller to_ token_id).2 = s)
    ∧ ((transfer s caller to_ token_id).1 = true →
        hmGet (transfer s caller to_ token_id).2.id_to_owner token_id = some to_
        ∧ (to_ ≠ caller →
            balance_of (transfer s caller to_ token_id).2 caller
              = sub64 (balance_of s caller) 1
            ∧ balance_of (transfer s caller to_ token_id).2 to_
              = add64 (balance_of s to_) 1)
        ∧ (to_ = caller →
            balance_of (transfer s caller to_ token_id).2 to_
              = add64 (balance_of s to_) 1)) := by
  rw [transfer_eq_impl]
  cases hb : is_token_owner s caller token_id with
  | false =>
    rw [transfer_impl_of_not_owner s caller to_ token_id hb]
    exact ⟨rfl, fun _ => rfl, fun h => Bool.noConfusion h⟩
  | true =>
    rw [transfer_impl_of_owner s caller to_ token_id hb]
    refine ⟨rfl, fun h => Bool.noConfusion h,
      fun _ => ⟨?_, fun hne => ⟨?_, ?_⟩, fun _ => ?_⟩⟩
    · exact hmGet_insert_self s.id_to_owner token_id to_
    · exact getD_insert_insert_ne s.owner_to_token_count caller to_
        (sub64 (balance_of s caller) 1) (add64 (balance_of s to_) 1)
        (fun hh => hne hh.symm)
    · exact getD_insert_self
        (hmInsert s.owner_to_token_count caller (sub64 (balance_of s caller) 1))
        to_ (add64 (balance_of s to_) 1)
    · exact getD_insert_self
        (hmInsert s.owner_to_token_count caller (sub64 (balance_of s caller) 1))
        to_ (add64 (balance_of s to_) 1)

/-- Witness for the amended C6: a successful transfer of token 1 from
account 0 to account 5 in `sDep2`, with the owner record and both counts as
stated. -/
theorem C6_transfer_semantics_witness :
    (transfer sDep2 0 5 1).1 = true ∧
    hmGet (transfer sDep2 0 5 1).2.id_to_owner 1 = some 5 ∧
    balance_of (transfer sDep2 0 5 1).2 0 = sub64 (balance_of sDep2 0) 1 ∧
    balance_of (transfer sDep2 0 5 1).2 5 = add64 (balance_of sDep2 5) 1 := by
  have h := C6_transfer_semantics sDep2 0 5 1
  have h1 : (transfer sDep2 0 5 1).1 = true := by
    rw [h.1]
    decide
  have h3 := h.2.2 h1
  exact ⟨h1, h3.1, (h3.2.1 (by decide)).1, (h3.2.1 (by decide)).2⟩

/-- Claim C7: when the caller owns minted token `token_id`,
`approval(d, token_id, true)` succeeds, makes `is_approved token_id d` true,
and makes `is_approved token_id prev` false for every `prev ≠ d` — in
particular a previously approved delegate is overwritten without a prior
revoke. -/
theorem C7_approval_grant (s : State) (caller d : AccountId) (token_id : Nat)
    (h : hmGet s.id_to_owner token_id = some caller) :
    (approval s caller d token_id true).1 = true
    ∧ is_approved (approval s caller d token_id true).2 token_id d = true
    ∧ ∀ prev, prev ≠ d →
        is_approved (approval s caller d token_id true).2 token_id prev
          = false := by
  have happr : (approval s caller d token_id true).2.approvals
      = hmInsert s.approvals token_id d
      ∧ (approval s caller d token_id true).1 = true := by
    cases ha : hmGet s.approvals token_id <;> simp [approval, h, ha]
  refine ⟨happr.2, ?_, ?_⟩
  · simp [is_approved, happr.1, hmGet_insert]
  · intro prev hprev
    have hd : ¬ d = prev := fun hh => hprev hh.symm
    simp [is_approved, happr.1, hmGet_insert, hd]

/-- Witness for C7 at `sAppr`: account 0 owns token 1 with delegate 3
approved; granting delegate 5 succeeds, approves 5 and un-approves 3. -/
theorem C7_approval_grant_witness :
    is_approved sAppr 1 3 = true ∧
    (approval sAppr 0 5 1 true).1 = true ∧
    is_approved (approval sAppr 0 5 1 true).2 1 5 = true ∧
    is_approved (approval sAppr 0 5 1 true).2 1 3 = false := by
  have h := C7_approval_grant sAppr 0 5 1 (by decide)
  exact ⟨by decide, h.1, h.2.1, h.2.2 3 (by decide)⟩

/-- Claim C8: a successful `transfer` or `transfer_from` leaves the
approvals map untouched, so `is_approved` is unchanged for every token id
and delegate. -/
theorem C8_transfers_preserve_approvals (s : State) (caller to_ : AccountId)
    (token_id id2 : Nat) (d : AccountId) :
    ((transfer s caller to_ token_id).1 = true →
      is_approved (transfer s caller to_ token_id).2 id2 d
        = is_approved s id2 d)
    ∧ ((transfer_from s caller to_ token_id).1 = true →
      is_approved (transfer_from s caller to_ token_id).2 id2 d
        = is_approved s id2 d) := by
  constructor
  · intro _
    refine is_approved_congr ?_ id2 d
    rw [transfer_eq_impl]
    exact transfer_impl_approvals s caller to_ token_id
  · intro _
    refine is_approved_congr ?_ id2 d
    rw [transfer_from_eq]
    by_cases hb : is_token_owner s caller token_id = true
    · simp [hb, transfer_impl_approvals]
    · simp [hb]

/-- Witness for C8 at `sAppr`: successful `transfer` and `transfer_from` of
token 1 keep delegate 3 approved for token 1. -/
theorem C8_transfers_preserve_approvals_witness :
    (transfer sAppr 0 5 1).1 = true ∧
    is_approved (transfer sAppr 0 5 1).2 1 3 = true ∧
    (transfer_from sAppr 0 5 1).1 = true ∧
    is_approved (transfer_from sAppr 0 5 1).2 1 3 = true := by
  have h := C8_transfers_preserve_approvals sAppr 0 5 1 1 3
  refine ⟨by decide, ?_, by decide, ?_⟩
  · rw [h.1 (by decide)]
    decide
  · rw [h.2 (by decide)]
    decide

end NFToken
